import Mathlib

/-
Verification of the linkedin-ai-jobs-scraper repository.

Shallow embedding of the scraper core, translated from:
  - src/jobbot/app/linkedin_client.py   (the jobbot client: build_search_params,
    fetch_job_description, scrape)
  - src/jobbot/app/config.py            (LinkedInSearchConfig, load_config validation)
  - src/jobbot/app/cli.py               (load_config before run_scrape)
  - src/linkedin_scraper_min.py         (the v1 minimal scraper: scrape_linkedin,
    which raises RuntimeError on HTTP failures and uses offset granularity 25)
  - src/linkedin_scraper_min_v2.py      (v2 build_search_params, which validates
    f_WT inside the builder)

Modelling conventions:
  - HTTP transport and HTML parsing are external capabilities.  A World value
    gives, for each search offset, the outcome of the search request (transport
    error, or a status code plus the list of parsed listing cards), and for
    each job id the outcome of the detail-page request.
  - A Card carries exactly what the code reads from one listing container via
    BeautifulSoup: the optional link href, the optional title text and the
    optional company text (missing tag encoded as none).
  - Machine integers do not overflow here (Python ints are unbounded), so Nat
    and Int are used directly.
  - time.sleep, random jitter, timeouts and the delay fields only affect
    timing, never values, and are not modelled.
  - The scrape loop is written with an explicit fuel argument so that it is
    structurally recursive and computable by the kernel; fuel 1000 is always
    sufficient because the offset strictly increases and the loop stops at
    offset 1000 (proved below as the termination theorem).
-/

/-- Output record, from src/jobbot/app/models.py (dataclass Job).  The v1
minimal scraper emits dicts with the same four keys. -/
structure Job where
  job_url : String
  title : String
  company_name : String
  description : Option String
deriving DecidableEq, Repr

/-- Search configuration, from src/jobbot/app/config.py (dataclass
LinkedInSearchConfig), with the same defaults.  delay_seconds, jitter_seconds
and timeout_seconds are omitted: they only affect timing.  The field
filter_out_companies is read by scrape in linkedin_client.py (line 163); the
dataclass in config.py does not declare it, so it is modelled here as the
attribute scrape expects, defaulting to the empty list. -/
structure LinkedInSearchConfig where
  keywords : String
  location : String
  distance : Int := 25
  f_WT : Option Int := none
  experience_levels : String := "2,3"
  easy_apply : Bool := false
  company_ids : List Int := []
  hours_old : Option Int := some 24
  fetch_description : Bool := true
  results_wanted : Nat := 50
  offset : Nat := 0
  filter_out_companies : List String := []
deriving DecidableEq, Repr

/-- What the code reads from one listing container
(div.base-search-card): the href of a.base-card__full-link (none when the tag
or the attribute is missing), the text of span.sr-only, and the text of the
anchor inside h4.base-search-card__subtitle. -/
structure Card where
  href : Option String
  title : Option String
  company : Option String
deriving DecidableEq, Repr

/-- Outcome of one GET on the search endpoint: a transport-level exception, or
a response with a status code and the cards parsed from its body. -/
inductive SearchResult where
  | err
  | ok (status : Nat) (cards : List Card)
deriving DecidableEq, Repr

/-- Outcome of one GET on a job detail page.  err covers transport exceptions
and raise_for_status on status 400 or above (both are caught by the same
except block in fetch_job_description).  Otherwise the final resolved URL and
the text of the div whose class contains show-more-less-html__markup (none
when no such div exists) are observed. -/
inductive DetailResult where
  | err
  | page (finalUrl : String) (markup : Option String)
deriving DecidableEq, Repr

/-- The external network: responses of the search endpoint by offset, and of
the detail pages by job id. -/
structure World where
  search : Nat → SearchResult
  detail : String → DetailResult

/-- Network events issued by the loop, in order: one search request per page
and one detail request per enriched card. -/
inductive Ev where
  | searchReq (start : Nat)
  | detailReq (jobId : String)
deriving DecidableEq, Repr

/-- Mutable state of one scrape run: the accumulated jobs, the set of already
seen ids (kept here as a list in first-seen order; the code uses a Python
set, whose contents this list refines), and the trace of issued requests. -/
structure ScrapeState where
  jobs : List Job
  seen : List String
  evs : List Ev
deriving DecidableEq, Repr

/-- Characters stripped by Python str.strip and matched by the regex class
backslash-s, restricted to ASCII. -/
def isPySpace (c : Char) : Bool :=
  c = ' ' || c = '\t' || c = '\n' || c = '\r' || c = '\x0b' || c = '\x0c'

/-- Python str.strip: drop leading and trailing whitespace. -/
def pyStrip (l : List Char) : List Char :=
  ((l.dropWhile isPySpace).reverse.dropWhile isPySpace).reverse

/-- Lower-cased character data of a string (Python str.lower on ASCII). -/
def lowerData (s : String) : List Char :=
  s.data.map Char.toLower

/-- Boolean contiguous-substring test on lists (the needle occurs somewhere
inside the hay). -/
def occursIn (needle : List Char) : List Char → Bool
  | [] => needle.isEmpty
  | c :: rest => needle.isPrefixOf (c :: rest) || occursIn needle rest

/-- Python substring test: needle in hay. -/
def containsSub (needle hay : String) : Bool :=
  occursIn needle.data hay.data

/-- Collapse every run of whitespace to a single space
(re.sub of one-or-more whitespace to a space).  The Bool argument records
whether the previous kept character position was inside a whitespace run. -/
def collapseWsAux : List Char → Bool → List Char
  | [], _ => []
  | c :: rest, inWs =>
    if isPySpace c then
      if inWs then collapseWsAux rest true
      else ' ' :: collapseWsAux rest true
    else c :: collapseWsAux rest false

/-- The whitespace normalisation of plain_text in linkedin_client.py
(lines 42 to 46): collapse whitespace runs, then strip.  The markup-to-text
step (soup.get_text) is the external parsing primitive; its output is the
input here. -/
def plain_text (s : String) : String :=
  String.mk (pyStrip (collapseWsAux s.data false))

/-- Maximal run of digits at the end of the character list. -/
def trailingDigits (l : List Char) : List Char :=
  (l.reverse.takeWhile Char.isDigit).reverse

/-- Match of the first regex in extract_job_id_from_href: a hyphen followed
by digits at the end of the string.  re.search finds the leftmost position
where the whole pattern matches the remaining suffix, which is exactly the
maximal trailing digit run provided the character before it is a hyphen. -/
def hyphenIdMatch (l : List Char) : Option (List Char) :=
  let ds := trailingDigits l
  if ds = [] then none
  else
    match (l.take (l.length - ds.length)).getLast? with
    | some c => if c = '-' then some ds else none
    | none => none

/-- Match of the second regex in extract_job_id_from_href: the literal
/jobs/view/ followed by at least one digit, leftmost occurrence, capturing
the maximal digit run that follows it. -/
def viewIdMatch : List Char → Option (List Char)
  | [] => none
  | c :: rest =>
    if ("/jobs/view/").data.isPrefixOf (c :: rest) then
      let ds := ((c :: rest).drop ("/jobs/view/").data.length).takeWhile Char.isDigit
      if ds = [] then viewIdMatch rest else some ds
    else viewIdMatch rest

/-- extract_job_id_from_href from linkedin_client.py lines 33 to 39: cut the
href at the first question mark, then try the trailing -digits pattern, then
the /jobs/view/digits pattern.  Returns none when neither matches; matched
groups are always nonempty, so the Python falsiness check on the result
coincides with the none case. -/
def extract_job_id_from_href (href : String) : Option String :=
  let s := href.data.takeWhile (fun ch => ch != '?')
  match hyphenIdMatch s with
  | some ds => some (String.mk ds)
  | none =>
    match viewIdMatch s with
    | some ds => some (String.mk ds)
    | none => none

/-- Detail page URL for a job id, as built twice in linkedin_client.py. -/
def jobViewUrl (jobId : String) : String :=
  "https://www.linkedin.com/jobs/view/" ++ jobId

/-- fetch_job_description from linkedin_client.py lines 75 to 93: on any
request exception or HTTP error status, return none; if the final URL crossed
the sign-up or sign-in boundary, return none; if the content div is missing,
return none; otherwise the normalised text of the div. -/
def fetch_job_description (w : World) (jobId : String) : Option String :=
  match w.detail jobId with
  | DetailResult.err => none
  | DetailResult.page finalUrl markup =>
    if containsSub "linkedin.com/signup" finalUrl || containsSub "linkedin.com/login" finalUrl then
      none
    else
      match markup with
      | none => none
      | some m => some (plain_text m)

/-- Parameter values are Python strings or ints. -/
inductive PVal where
  | s (v : String)
  | i (v : Int)
deriving DecidableEq, Repr

/-- Comma-joined company ids, as in join of str(x). -/
def joinIds (ids : List Int) : String :=
  String.intercalate "," (ids.map toString)

/-- The five unconditional search parameters, in insertion order. -/
def baseParams (cfg : LinkedInSearchConfig) (start : Nat) : List (String × PVal) :=
  [("keywords", PVal.s cfg.keywords),
   ("location", PVal.s cfg.location),
   ("distance", PVal.i cfg.distance),
   ("pageNum", PVal.i 0),
   ("start", PVal.i start)]

/-- The four conditional filter parameters shared by every variant of
build_search_params, in insertion order: f_E when experience_levels is a
nonempty string, f_AL with literal value true when easy_apply, f_C
comma-joined when company_ids is nonempty, f_TPR as r followed by
hours times 3600 when hours_old is set. -/
def optParams (cfg : LinkedInSearchConfig) : List (String × PVal) :=
  (if cfg.experience_levels ≠ "" then [("f_E", PVal.s cfg.experience_levels)] else [])
  ++ (if cfg.easy_apply then [("f_AL", PVal.s "true")] else [])
  ++ (if cfg.company_ids ≠ [] then [("f_C", PVal.s (joinIds cfg.company_ids))] else [])
  ++ (match cfg.hours_old with
      | some h => [("f_TPR", PVal.s ("r" ++ toString (h * 3600)))]
      | none => [])

/-- build_search_params from linkedin_client.py lines 49 to 72: the base
parameters, then f_WT only if set, then the conditional filters. -/
def build_search_params (cfg : LinkedInSearchConfig) (start : Nat) : List (String × PVal) :=
  baseParams cfg start
  ++ (match cfg.f_WT with
      | some v => [("f_WT", PVal.i v)]
      | none => [])
  ++ optParams cfg

/-- Dict lookup on the parameter list (keys here are pairwise distinct). -/
def getParam (ps : List (String × PVal)) (k : String) : Option PVal :=
  match ps with
  | [] => none
  | (k', v) :: rest => if k' = k then some v else getParam rest k

/-- Error message of the work-type validation, from config.py line 47 and
linkedin_scraper_min_v2.py line 70. -/
def configErrMsg : String := "linkedin.f_WT must be 1, 2, or 3"

/-- The validation performed by load_config in config.py lines 46 to 47 after
constructing the config: reject an f_WT that is set and not 1, 2 or 3.  The
YAML reading itself is external input construction. -/
def load_config_check (cfg : LinkedInSearchConfig) : Except String LinkedInSearchConfig :=
  match cfg.f_WT with
  | some v => if v ≠ 1 ∧ v ≠ 2 ∧ v ≠ 3 then Except.error configErrMsg else Except.ok cfg
  | none => Except.ok cfg

/-- build_search_params from linkedin_scraper_min_v2.py lines 61 to 85, which
validates f_WT inside the builder and raises ValueError before returning any
parameter mapping. -/
def build_search_params_v2 (cfg : LinkedInSearchConfig) (start : Nat) :
    Except String (List (String × PVal)) :=
  match cfg.f_WT with
  | some v =>
    if v = 1 ∨ v = 2 ∨ v = 3 then
      Except.ok (baseParams cfg start ++ [("f_WT", PVal.i v)] ++ optParams cfg)
    else Except.error configErrMsg
  | none => Except.ok (baseParams cfg start ++ optParams cfg)

/-- The company blocklist test from scrape in linkedin_client.py lines 163
to 170: when the list is nonempty, a company is blocked if some nonempty
term, lower-cased and stripped, occurs in the lower-cased company name. -/
def blockedBy (blocklist : List String) (company : String) : Bool :=
  if blocklist = [] then false
  else blocklist.any fun b =>
    (b != "") && occursIn (pyStrip (lowerData b)) (lowerData company)

/-- Decision taken for one card by the body of the for loop in scrape
(linkedin_client.py lines 146 to 171): skip when the link or id is missing or
the id was already seen; otherwise record the id, and either only record it
(company blocked) or emit a job with the extracted title and company
(falling back to the literal N/A). -/
inductive CardAction where
  | skip
  | markOnly (jobId : String)
  | emit (jobId : String) (title : String) (company : String)
deriving DecidableEq, Repr

/-- Python falsiness of the href attribute: missing tag, missing attribute or
empty string all skip the card. -/
def cardHref (c : Card) : Option String :=
  match c.href with
  | none => none
  | some h => if h = "" then none else some h

/-- Classification of one card against the current seen set, from
linkedin_client.py lines 146 to 171. -/
def classifyCard (cfg : LinkedInSearchConfig) (seen : List String) (c : Card) : CardAction :=
  match cardHref c with
  | none => CardAction.skip
  | some href =>
    match extract_job_id_from_href href with
    | none => CardAction.skip
    | some jid =>
      if jid ∈ seen then CardAction.skip
      else
        let title := (c.title).getD "N/A"
        let company := (c.company).getD "N/A"
        if blockedBy cfg.filter_out_companies company then CardAction.markOnly jid
        else CardAction.emit jid title company

/-- State update when one card is emitted (linkedin_client.py lines 173
to 193): issue the detail request and store its result as the description
when fetching is enabled, and append the constructed Job; the id was already
recorded by the classification step. -/
def emitState (w : World) (fetchDesc : Bool) (st : ScrapeState)
    (jid title company : String) : ScrapeState :=
  { jobs := st.jobs ++ [{ job_url := jobViewUrl jid, title := title,
                          company_name := company,
                          description := if fetchDesc then fetch_job_description w jid else none }],
    seen := st.seen ++ [jid],
    evs := if fetchDesc then st.evs ++ [Ev.detailReq jid] else st.evs }

/-- The for loop over the cards of one page in scrape (linkedin_client.py
lines 146 to 195): process cards in document order; on emit, fetch the
description when enabled, append the Job, and break out of the page as soon
as the collected count reaches results_wanted. -/
def processCards (w : World) (cfg : LinkedInSearchConfig) :
    List Card → ScrapeState → ScrapeState
  | [], st => st
  | c :: rest, st =>
    match classifyCard cfg st.seen c with
    | CardAction.skip => processCards w cfg rest st
    | CardAction.markOnly jid =>
      processCards w cfg rest { st with seen := st.seen ++ [jid] }
    | CardAction.emit jid title company =>
      let st3 := emitState w cfg.fetch_description st jid title company
      if cfg.results_wanted ≤ st3.jobs.length then st3
      else processCards w cfg rest st3

/-- Initial offset of scrape in linkedin_client.py line 112: offset floored
to a multiple of 10 when nonzero. -/
def initStart (cfg : LinkedInSearchConfig) : Nat :=
  if cfg.offset ≠ 0 then cfg.offset / 10 * 10 else 0

/-- The while loop of scrape in linkedin_client.py lines 114 to 197, with an
explicit fuel argument (the loop body is reached at most 1000 times, proved
below).  Each iteration: stop when enough jobs are collected or the offset
reached 1000; issue the search request; stop on a transport error, on status
429, on any status of 400 or more, or on a page without cards, returning the
jobs collected so far; otherwise process the cards and advance the offset by
the actual number of cards on the page. -/
def scrapeLoop (w : World) (cfg : LinkedInSearchConfig) :
    Nat → ScrapeState → Nat → ScrapeState
  | 0, st, _ => st
  | fuel + 1, st, start =>
    if st.jobs.length < cfg.results_wanted ∧ start < 1000 then
      let st0 : ScrapeState := { st with evs := st.evs ++ [Ev.searchReq start] }
      match w.search start with
      | SearchResult.err => st0
      | SearchResult.ok status cards =>
        if status = 429 then st0
        else if 400 ≤ status then st0
        else
          match cards with
          | [] => st0
          | c :: cs =>
            scrapeLoop w cfg fuel (processCards w cfg (c :: cs) st0) (start + (c :: cs).length)
    else st

/-- scrape from linkedin_client.py lines 95 to 199: run the loop from the
floored initial offset with empty state.  Fuel 1000 never runs out (see the
termination theorem). -/
def scrape (w : World) (cfg : LinkedInSearchConfig) : ScrapeState :=
  scrapeLoop w cfg 1000 { jobs := [], seen := [], evs := [] } (initStart cfg)

/-- The CLI path in cli.py lines 32 to 37: load_config validates the config
before run_scrape issues any request; an invalid work-type aborts the run
with no output. -/
def run_cli (w : World) (cfg : LinkedInSearchConfig) : Except String ScrapeState :=
  match load_config_check cfg with
  | Except.error e => Except.error e
  | Except.ok c => Except.ok (scrape w c)

/-- The offsets of the search requests in a trace, in issue order. -/
def searchOffsets (evs : List Ev) : List Nat :=
  evs.filterMap fun e =>
    match e with
    | Ev.searchReq s => some s
    | Ev.detailReq _ => none

/-- Configuration of the v1 minimal scraper (linkedin_scraper_min.py,
dataclass LinkedInSearchConfig there), restricted to the fields its scrape
loop reads; the filter fields only feed the request parameters, which the
World abstracts, and the delay and timeout fields only affect timing. -/
structure MinConfig where
  results_wanted : Nat := 50
  offset : Nat := 0
  fetch_description : Bool := true
deriving DecidableEq, Repr

/-- Card classification of the v1 minimal scraper (linkedin_scraper_min.py
lines 158 to 175); identical to the jobbot client except that there is no
company blocklist. -/
def classifyCardV1 (seen : List String) (c : Card) : CardAction :=
  match cardHref c with
  | none => CardAction.skip
  | some href =>
    match extract_job_id_from_href href with
    | none => CardAction.skip
    | some jid =>
      if jid ∈ seen then CardAction.skip
      else CardAction.emit jid ((c.title).getD "N/A") ((c.company).getD "N/A")

/-- The for loop over the cards of one page in scrape_linkedin
(linkedin_scraper_min.py lines 158 to 199). -/
def processCardsV1 (w : World) (cfg : MinConfig) :
    List Card → ScrapeState → ScrapeState
  | [], st => st
  | c :: rest, st =>
    match classifyCardV1 st.seen c with
    | CardAction.skip => processCardsV1 w cfg rest st
    | CardAction.markOnly jid =>
      processCardsV1 w cfg rest { st with seen := st.seen ++ [jid] }
    | CardAction.emit jid title company =>
      let st3 := emitState w cfg.fetch_description st jid title company
      if cfg.results_wanted ≤ st3.jobs.length then st3
      else processCardsV1 w cfg rest st3

/-- Initial offset of scrape_linkedin in linkedin_scraper_min.py line 137:
the v1 script floors the configured offset to a multiple of 25, not 10. -/
def initStartV1 (cfg : MinConfig) : Nat :=
  if cfg.offset ≠ 0 then cfg.offset / 25 * 25 else 0

/-- The while loop of scrape_linkedin in linkedin_scraper_min.py lines 139
to 199.  Unlike the jobbot client, a transport error, a 429 response or any
status of 400 or more raises RuntimeError; the second component some msg
models the raised exception (the interpolated exception text and response
body of the messages are elided), in which case the accumulated state is not
returned to the caller. -/
def scrapeLoopV1 (w : World) (cfg : MinConfig) :
    Nat → ScrapeState → Nat → ScrapeState × Option String
  | 0, st, _ => (st, none)
  | fuel + 1, st, start =>
    if st.jobs.length < cfg.results_wanted ∧ start < 1000 then
      let st0 : ScrapeState := { st with evs := st.evs ++ [Ev.searchReq start] }
      match w.search start with
      | SearchResult.err => (st0, some "Request failed")
      | SearchResult.ok status cards =>
        if status = 429 then
          (st0, some "429 Too Many Requests (rate-limited by LinkedIn). Slow down / add backoff.")
        else if 400 ≤ status then (st0, some ("LinkedIn returned HTTP " ++ toString status))
        else
          match cards with
          | [] => (st0, none)
          | c :: cs =>
            scrapeLoopV1 w cfg fuel (processCardsV1 w cfg (c :: cs) st0) (start + (c :: cs).length)
    else (st, none)

/-- scrape_linkedin from linkedin_scraper_min.py lines 127 to 207. -/
def scrape_linkedinV1 (w : World) (cfg : MinConfig) : ScrapeState × Option String :=
  scrapeLoopV1 w cfg 1000 { jobs := [], seen := [], evs := [] } (initStartV1 cfg)

/-- A concrete card whose href matches the trailing hyphen-digits pattern,
yielding the decimal digits of n as job id. -/
def mkCard (n : Nat) : Card :=
  { href := some ("j-" ++ toString n), title := none, company := none }

/-- n consecutive concrete cards with ids a, a+1, ... -/
def cardsRange (a n : Nat) : List Card :=
  (List.range n).map fun i => mkCard (a + i)

/-- A world whose search endpoint returns pages of 25, 25 and 10 fresh cards
at offsets 0, 25 and 50, and an empty page elsewhere; detail requests fail. -/
def w25 : World :=
  { search := fun s =>
      if s = 0 then SearchResult.ok 200 (cardsRange 101 25)
      else if s = 25 then SearchResult.ok 200 (cardsRange 126 25)
      else if s = 50 then SearchResult.ok 200 (cardsRange 151 10)
      else SearchResult.ok 200 [],
    detail := fun _ => DetailResult.err }

/-- Configuration asking for more results than the world can provide, with
description fetching disabled. -/
def cfgMany : LinkedInSearchConfig :=
  { keywords := "engineer", location := "Remote", results_wanted := 500,
    fetch_description := false }

/-- A world that is rate-limited from the very first search request. -/
def w429 : World :=
  { search := fun _ => SearchResult.ok 429 [],
    detail := fun _ => DetailResult.err }

/-- A world whose search endpoint always answers with an empty page. -/
def wEmptyPages : World :=
  { search := fun _ => SearchResult.ok 200 [],
    detail := fun _ => DetailResult.err }

/-- Small v1 configuration used at concrete inputs. -/
def mcfgSmall : MinConfig :=
  { results_wanted := 3, offset := 0, fetch_description := false }

/-- v1 configuration with a starting offset of 10. -/
def mcfgOff10 : MinConfig :=
  { results_wanted := 3, offset := 10, fetch_description := false }

/-- A world with a single card for the company Acme at the first page and
empty pages afterwards. -/
def wAcme : World :=
  { search := fun s =>
      if s = 0 then
        SearchResult.ok 200 [{ href := some "a-321", title := some "T", company := some "Acme" }]
      else SearchResult.ok 200 [],
    detail := fun _ => DetailResult.err }

/-- Configuration whose blocklist consists of the empty string only. -/
def cfgEmptyTerm : LinkedInSearchConfig :=
  { keywords := "k", location := "l", results_wanted := 5,
    fetch_description := false, filter_out_companies := [""] }

/-- Configuration with an invalid work-type code. -/
def cfgBadWT : LinkedInSearchConfig :=
  { keywords := "k", location := "l", f_WT := some 7 }

/-- Small jobbot configuration used at concrete inputs. -/
def cfgSmall : LinkedInSearchConfig :=
  { keywords := "k", location := "l", results_wanted := 1,
    fetch_description := false }

/-- Jobbot configuration with description fetching enabled and room for five
results. -/
def cfgFive : LinkedInSearchConfig :=
  { keywords := "k", location := "l", results_wanted := 5 }

/-- Jobbot configuration blocking the term Acme. -/
def cfgBlockAcme : LinkedInSearchConfig :=
  { keywords := "k", location := "l", results_wanted := 5,
    fetch_description := false, filter_out_companies := ["Acme"] }

/-- A card whose company contains a blocked term. -/
def cardAcmeCorp : Card :=
  { href := some "a-77", title := some "T", company := some "Acme Corp" }

/-- Relation between the offsets of two consecutive search requests of one
run: the earlier one was answered successfully (no transport error, not 429,
status below 400) with a nonempty card list, and the later one is the earlier
plus the exact number of cards of that page. -/
def nextReqRel (w : World) (a b : Nat) : Prop :=
  ∃ status cards, w.search a = SearchResult.ok status cards ∧
    status ≠ 429 ∧ status < 400 ∧ cards ≠ [] ∧ b = a + cards.length

/-- A search response on which the loop halts for an error-type reason:
transport error, HTTP 429, or any other status of 400 or more. -/
def badResp : SearchResult → Prop
  | SearchResult.err => True
  | SearchResult.ok status _ => status = 429 ∨ 400 ≤ status

/-- Run invariant used for deduplication: the emitted job URLs form a
subsequence of the URLs of the seen ids (which are recorded in first-seen
order), and the seen ids are pairwise distinct. -/
def stInv (st : ScrapeState) : Prop :=
  List.Sublist (st.jobs.map Job.job_url) (st.seen.map jobViewUrl) ∧ st.seen.Nodup

/-- A valid work-type filter: unset, or one of the codes 1, 2, 3. -/
def validWT (cfg : LinkedInSearchConfig) : Prop :=
  cfg.f_WT = none ∨ cfg.f_WT = some 1 ∨ cfg.f_WT = some 2 ∨ cfg.f_WT = some 3

/-- Helper lemmas about strings and infixes. -/
theorem occursIn_iff (n h : List Char) : occursIn n h = true ↔ n <:+: h := by
  induction h with
  | nil => simp [occursIn, List.infix_nil]
  | cons c rest ih => simp [occursIn, List.isPrefixOf_iff_prefix, List.infix_cons_iff, ih]

/-- Stripping whitespace yields a contiguous substring of the original. -/
theorem pyStrip_occurs_self (l : List Char) : pyStrip l <:+: l := by
  unfold pyStrip
  have h1 : (l.dropWhile isPySpace) <:+ l := List.dropWhile_suffix _
  have h2 : ((l.dropWhile isPySpace).reverse.dropWhile isPySpace) <:+
      (l.dropWhile isPySpace).reverse := List.dropWhile_suffix _
  have h3 : ((l.dropWhile isPySpace).reverse.dropWhile isPySpace).reverse <+:
      (l.dropWhile isPySpace) := by
    rw [← List.reverse_suffix]
    simpa using h2
  exact h3.isInfix.trans h1.isInfix

/-- The detail URL determines the job id. -/
theorem jobViewUrl_inj : Function.Injective jobViewUrl := by
  intro a b hab
  have hd : ("https://www.linkedin.com/jobs/view/" ++ a).data =
      ("https://www.linkedin.com/jobs/view/" ++ b).data := congrArg String.data hab
  rw [String.data_append, String.data_append] at hd
  exact String.ext (List.append_cancel_left hd)

/-- A card classified markOnly carries an id that was not yet seen. -/
theorem classifyCard_markOnly_fresh {cfg : LinkedInSearchConfig} {seen : List String}
    {c : Card} {jid : String}
    (h : classifyCard cfg seen c = CardAction.markOnly jid) : jid ∉ seen := by
  simp only [classifyCard] at h
  split at h
  · exact absurd h (by simp)
  split at h
  · exact absurd h (by simp)
  split at h
  · exact absurd h (by simp)
  next hm =>
    split at h
    · cases h; exact hm
    · exact absurd h (by simp)

/-- A card classified emit carries an id that was not yet seen. -/
theorem classifyCard_emit_fresh {cfg : LinkedInSearchConfig} {seen : List String}
    {c : Card} {jid t comp : String}
    (h : classifyCard cfg seen c = CardAction.emit jid t comp) : jid ∉ seen := by
  simp only [classifyCard] at h
  split at h
  · exact absurd h (by simp)
  split at h
  · exact absurd h (by simp)
  split at h
  · exact absurd h (by simp)
  next hm =>
    split at h
    · exact absurd h (by simp)
    · cases h; exact hm

/-- A v1 card classified emit carries an id that was not yet seen. -/
theorem classifyCardV1_emit_fresh {seen : List String} {c : Card} {jid t comp : String}
    (h : classifyCardV1 seen c = CardAction.emit jid t comp) : jid ∉ seen := by
  simp only [classifyCardV1] at h
  split at h
  · exact absurd h (by simp)
  split at h
  · exact absurd h (by simp)
  split at h
  · exact absurd h (by simp)
  next hm => cases h; exact hm


/-- Jobs of an emit step: exactly one Job is appended. -/
theorem emitState_jobs (w : World) (fd : Bool) (st : ScrapeState) (jid t comp : String) :
    (emitState w fd st jid t comp).jobs =
    st.jobs ++ [{ job_url := jobViewUrl jid, title := t, company_name := comp,
                  description := if fd then fetch_job_description w jid else none }] := rfl

/-- Seen ids of an emit step. -/
theorem emitState_seen (w : World) (fd : Bool) (st : ScrapeState) (jid t comp : String) :
    (emitState w fd st jid t comp).seen = st.seen ++ [jid] := rfl

/-- Job count of an emit step. -/
theorem emitState_jobs_length (w : World) (fd : Bool) (st : ScrapeState) (jid t comp : String) :
    (emitState w fd st jid t comp).jobs.length = st.jobs.length + 1 := by
  simp [emitState]

/-- Search offsets are unchanged by an emit step (only a detail request may
be recorded). -/
theorem emitState_searchOffsets (w : World) (fd : Bool) (st : ScrapeState) (jid t comp : String) :
    searchOffsets (emitState w fd st jid t comp).evs = searchOffsets st.evs := by
  cases fd <;> simp [emitState, searchOffsets, List.filterMap_append]

/-- Processing a page never pushes the job count above results_wanted when it
was strictly below on entry (the loop guard guarantees the entry condition). -/
theorem processCards_length_le (w : World) (cfg : LinkedInSearchConfig) :
    ∀ (cards : List Card) (st : ScrapeState),
    st.jobs.length < cfg.results_wanted →
    (processCards w cfg cards st).jobs.length ≤ cfg.results_wanted := by
  intro cards
  induction cards with
  | nil => intro st h; simpa [processCards] using Nat.le_of_lt h
  | cons c rest ih =>
    intro st h
    simp only [processCards]
    cases hcl : classifyCard cfg st.seen c with
    | skip => exact ih st h
    | markOnly jid => exact ih _ (by simpa using h)
    | emit jid t comp =>
      dsimp only
      split
      · next hge => simp only [emitState_jobs_length] at hge ⊢; omega
      · next hlt => exact ih _ (by simp only [emitState_jobs_length] at hlt ⊢; omega)

/-- Once the collected count reaches results_wanted while iterating the cards
of a page, the remaining cards of that page are not processed at all: the
state (jobs, seen ids and issued requests) is exactly the one obtained from
the prefix that reached the target. -/
theorem processCards_early_stop (w : World) (cfg : LinkedInSearchConfig) :
    ∀ (l₁ l₂ : List Card) (st : ScrapeState),
    st.jobs.length < cfg.results_wanted →
    cfg.results_wanted ≤ (processCards w cfg l₁ st).jobs.length →
    processCards w cfg (l₁ ++ l₂) st = processCards w cfg l₁ st := by
  intro l₁
  induction l₁ with
  | nil =>
    intro l₂ st h hful
    simp only [processCards] at hful
    omega
  | cons c rest ih =>
    intro l₂ st h hful
    rw [List.cons_append]
    simp only [processCards] at hful ⊢
    cases hcl : classifyCard cfg st.seen c with
    | skip => rw [hcl] at hful; exact ih l₂ st h hful
    | markOnly jid => rw [hcl] at hful; exact ih l₂ _ (by simpa using h) hful
    | emit jid t comp =>
      rw [hcl] at hful
      dsimp only at hful ⊢
      by_cases hif : cfg.results_wanted ≤
          (emitState w cfg.fetch_description st jid t comp).jobs.length
      · simp only [if_pos hif]
      · simp only [if_neg hif] at hful ⊢
        exact ih l₂ _ (by simp only [emitState_jobs_length] at hif ⊢; omega) hful

/-- Processing cards never issues a search request: the search offsets of the
trace are unchanged. -/
theorem processCards_searchOffsets (w : World) (cfg : LinkedInSearchConfig) :
    ∀ (cards : List Card) (st : ScrapeState),
    searchOffsets (processCards w cfg cards st).evs = searchOffsets st.evs := by
  intro cards
  induction cards with
  | nil => intro st; simp [processCards]
  | cons c rest ih =>
    intro st
    simp only [processCards]
    cases hcl : classifyCard cfg st.seen c with
    | skip => exact ih st
    | markOnly jid => exact ih _
    | emit jid t comp =>
      dsimp only
      split
      · exact emitState_searchOffsets w cfg.fetch_description st jid t comp
      · rw [ih]; exact emitState_searchOffsets w cfg.fetch_description st jid t comp

/-- Processing cards preserves the deduplication invariant: emitted job URLs
stay a subsequence of the URLs of the seen ids, and seen ids stay distinct. -/
theorem processCards_inv (w : World) (cfg : LinkedInSearchConfig) :
    ∀ (cards : List Card) (st : ScrapeState), stInv st → stInv (processCards w cfg cards st) := by
  intro cards
  induction cards with
  | nil => intro st h; simpa [processCards] using h
  | cons c rest ih =>
    intro st h
    unfold stInv at h
    obtain ⟨hsub, hnd⟩ := h
    simp only [processCards]
    cases hcl : classifyCard cfg st.seen c with
    | skip => exact ih st ⟨hsub, hnd⟩
    | markOnly jid =>
      have hfresh := classifyCard_markOnly_fresh hcl
      refine ih _ ?_
      unfold stInv
      constructor
      · show List.Sublist (st.jobs.map Job.job_url) ((st.seen ++ [jid]).map jobViewUrl)
        rw [List.map_append]
        exact hsub.trans (List.sublist_append_left _ _)
      · show (st.seen ++ [jid]).Nodup
        simp [List.nodup_append, hnd, hfresh]
    | emit jid t comp =>
      have hfresh := classifyCard_emit_fresh hcl
      have h3 : stInv (emitState w cfg.fetch_description st jid t comp) := by
        unfold stInv
        constructor
        · rw [emitState_jobs, emitState_seen, List.map_append, List.map_append]
          exact List.Sublist.append hsub (by simp)
        · rw [emitState_seen]
          simp [List.nodup_append, hnd, hfresh]
      dsimp only
      split
      · exact h3
      · exact ih _ h3

/-- v1 page processing never pushes the job count above results_wanted when
it was strictly below on entry. -/
theorem processCardsV1_length_le (w : World) (cfg : MinConfig) :
    ∀ (cards : List Card) (st : ScrapeState),
    st.jobs.length < cfg.results_wanted →
    (processCardsV1 w cfg cards st).jobs.length ≤ cfg.results_wanted := by
  intro cards
  induction cards with
  | nil => intro st h; simpa [processCardsV1] using Nat.le_of_lt h
  | cons c rest ih =>
    intro st h
    simp only [processCardsV1]
    cases hcl : classifyCardV1 st.seen c with
    | skip => exact ih st h
    | markOnly jid => exact ih _ (by simpa using h)
    | emit jid t comp =>
      dsimp only
      split
      · next hge => simp only [emitState_jobs_length] at hge ⊢; omega
      · next hlt => exact ih _ (by simp only [emitState_jobs_length] at hlt ⊢; omega)

/-- v1 also stops processing the remaining cards of a page once the target
count is reached mid-page. -/
theorem processCardsV1_early_stop (w : World) (cfg : MinConfig) :
    ∀ (l₁ l₂ : List Card) (st : ScrapeState),
    st.jobs.length < cfg.results_wanted →
    cfg.results_wanted ≤ (processCardsV1 w cfg l₁ st).jobs.length →
    processCardsV1 w cfg (l₁ ++ l₂) st = processCardsV1 w cfg l₁ st := by
  intro l₁
  induction l₁ with
  | nil =>
    intro l₂ st h hful
    simp only [processCardsV1] at hful
    omega
  | cons c rest ih =>
    intro l₂ st h hful
    rw [List.cons_append]
    simp only [processCardsV1] at hful ⊢
    cases hcl : classifyCardV1 st.seen c with
    | skip => rw [hcl] at hful; exact ih l₂ st h hful
    | markOnly jid => rw [hcl] at hful; exact ih l₂ _ (by simpa using h) hful
    | emit jid t comp =>
      rw [hcl] at hful
      dsimp only at hful ⊢
      by_cases hif : cfg.results_wanted ≤
          (emitState w cfg.fetch_description st jid t comp).jobs.length
      · simp only [if_pos hif]
      · simp only [if_neg hif] at hful ⊢
        exact ih l₂ _ (by simp only [emitState_jobs_length] at hif ⊢; omega) hful

/-- v1 page processing issues no search request. -/
theorem processCardsV1_searchOffsets (w : World) (cfg : MinConfig) :
    ∀ (cards : List Card) (st : ScrapeState),
    searchOffsets (processCardsV1 w cfg cards st).evs = searchOffsets st.evs := by
  intro cards
  induction cards with
  | nil => intro st; simp [processCardsV1]
  | cons c rest ih =>
    intro st
    simp only [processCardsV1]
    cases hcl : classifyCardV1 st.seen c with
    | skip => exact ih st
    | markOnly jid => exact ih _
    | emit jid t comp =>
      dsimp only
      split
      · exact emitState_searchOffsets w cfg.fetch_description st jid t comp
      · rw [ih]; exact emitState_searchOffsets w cfg.fetch_description st jid t comp

/-- The loop never pushes the job count above results_wanted. -/
theorem scrapeLoop_length_le (w : World) (cfg : LinkedInSearchConfig) :
    ∀ (fuel : Nat) (st : ScrapeState) (start : Nat),
    st.jobs.length ≤ cfg.results_wanted →
    (scrapeLoop w cfg fuel st start).jobs.length ≤ cfg.results_wanted := by
  intro fuel
  induction fuel with
  | zero => intro st start h; exact h
  | succ fuel ih =>
    intro st start h
    rw [scrapeLoop]
    by_cases hg : st.jobs.length < cfg.results_wanted ∧ start < 1000
    · rw [if_pos hg]
      dsimp only
      cases hw : w.search start with
      | err => exact h
      | ok status cards =>
        by_cases h429 : status = 429
        · simp only [if_pos h429]; exact h
        · simp only [if_neg h429]
          by_cases h400 : 400 ≤ status
          · simp only [if_pos h400]; exact h
          · simp only [if_neg h400]
            cases cards with
            | nil => exact h
            | cons c cs => exact ih _ _ (processCards_length_le w cfg _ _ hg.1)
    · rw [if_neg hg]; exact h

/-- The loop preserves the deduplication invariant. -/
theorem scrapeLoop_inv (w : World) (cfg : LinkedInSearchConfig) :
    ∀ (fuel : Nat) (st : ScrapeState) (start : Nat),
    stInv st → stInv (scrapeLoop w cfg fuel st start) := by
  intro fuel
  induction fuel with
  | zero => intro st start h; exact h
  | succ fuel ih =>
    intro st start h
    rw [scrapeLoop]
    by_cases hg : st.jobs.length < cfg.results_wanted ∧ start < 1000
    · rw [if_pos hg]
      dsimp only
      cases hw : w.search start with
      | err => exact h
      | ok status cards =>
        by_cases h429 : status = 429
        · simp only [if_pos h429]; exact h
        · simp only [if_neg h429]
          by_cases h400 : 400 ≤ status
          · simp only [if_pos h400]; exact h
          · simp only [if_neg h400]
            cases cards with
            | nil => exact h
            | cons c cs => exact ih _ _ (processCards_inv w cfg _ _ h)
    · rw [if_neg hg]; exact h

/-- The search offsets appended by the loop start (if any) at the entry
offset, advance according to nextReqRel, and stay below 1000. -/
theorem scrapeLoop_offsets (w : World) (cfg : LinkedInSearchConfig) :
    ∀ (fuel : Nat) (st : ScrapeState) (start : Nat),
    ∃ tail, searchOffsets (scrapeLoop w cfg fuel st start).evs = searchOffsets st.evs ++ tail ∧
      (tail = [] ∨ ∃ r, tail = start :: r) ∧
      List.Chain' (nextReqRel w) tail ∧
      (∀ s ∈ tail, s < 1000) := by
  intro fuel
  induction fuel with
  | zero =>
    intro st start
    exact ⟨[], by simp [scrapeLoop], Or.inl rfl, List.chain'_nil, by simp⟩
  | succ fuel ih =>
    intro st start
    rw [scrapeLoop]
    by_cases hg : st.jobs.length < cfg.results_wanted ∧ start < 1000
    · rw [if_pos hg]
      dsimp only
      have hst0 : searchOffsets (st.evs ++ [Ev.searchReq start]) =
          searchOffsets st.evs ++ [start] := by
        simp [searchOffsets, List.filterMap_append]
      have hone : ∃ tail, searchOffsets (st.evs ++ [Ev.searchReq start]) =
          searchOffsets st.evs ++ tail ∧ (tail = [] ∨ ∃ r, tail = start :: r) ∧
          List.Chain' (nextReqRel w) tail ∧ (∀ s ∈ tail, s < 1000) :=
        ⟨[start], hst0, Or.inr ⟨[], rfl⟩, List.chain'_singleton start, by
          intro s hs; simp at hs; omega⟩
      cases hw : w.search start with
      | err => exact hone
      | ok status cards =>
        by_cases h429 : status = 429
        · simp only [if_pos h429]; exact hone
        · simp only [if_neg h429]
          by_cases h400 : 400 ≤ status
          · simp only [if_pos h400]; exact hone
          · simp only [if_neg h400]
            cases cards with
            | nil => exact hone
            | cons c cs =>
              obtain ⟨tail, heq, hhead, hchain, hlt⟩ :=
                ih (processCards w cfg (c :: cs)
                      { st with evs := st.evs ++ [Ev.searchReq start] })
                   (start + (c :: cs).length)
              refine ⟨start :: tail, ?_, Or.inr ⟨tail, rfl⟩, ?_, ?_⟩
              · rw [heq, processCards_searchOffsets]
                show searchOffsets (st.evs ++ [Ev.searchReq start]) ++ tail = _
                rw [hst0]
                simp
              · cases tail with
                | nil => exact List.chain'_singleton start
                | cons b r =>
                  rcases hhead with h0 | ⟨r', hr⟩
                  · cases h0
                  · rw [List.chain'_cons]
                    refine ⟨?_, hchain⟩
                    have hb : b = start + (c :: cs).length := by
                      injection hr with hb _
                    exact ⟨status, c :: cs, hw, h429, Nat.lt_of_not_le h400,
                      List.cons_ne_nil c cs, hb⟩
              · intro s hs
                rcases List.mem_cons.mp hs with rfl | hs
                · exact hg.2
                · exact hlt s hs
    · rw [if_neg hg]
      exact ⟨[], by simp, Or.inl rfl, List.chain'_nil, by simp⟩

/-- Past the hard offset ceiling the loop does nothing. -/
theorem scrapeLoop_stop_of_ge (w : World) (cfg : LinkedInSearchConfig)
    (fuel : Nat) (st : ScrapeState) (start : Nat) (h : 1000 ≤ start) :
    scrapeLoop w cfg fuel st start = st := by
  cases fuel with
  | zero => rfl
  | succ fuel =>
    rw [scrapeLoop, if_neg]
    intro hc
    omega

/-- Termination of the loop: its value does not depend on the fuel as soon as
the fuel covers the distance from the current offset to the hard ceiling,
because every continuing iteration advances the offset by the page's card
count, which is at least one. -/
theorem scrapeLoop_fuel_indep (w : World) (cfg : LinkedInSearchConfig) :
    ∀ (f₁ f₂ : Nat) (st : ScrapeState) (start : Nat),
    1000 - start ≤ f₁ → 1000 - start ≤ f₂ →
    scrapeLoop w cfg f₁ st start = scrapeLoop w cfg f₂ st start := by
  intro f₁
  induction f₁ with
  | zero =>
    intro f₂ st start h1 h2
    have hge : 1000 ≤ start := by omega
    rw [scrapeLoop_stop_of_ge w cfg 0 st start hge,
        scrapeLoop_stop_of_ge w cfg f₂ st start hge]
  | succ f₁ ih =>
    intro f₂ st start h1 h2
    cases f₂ with
    | zero =>
      have hge : 1000 ≤ start := by omega
      rw [scrapeLoop_stop_of_ge w cfg (f₁ + 1) st start hge,
          scrapeLoop_stop_of_ge w cfg 0 st start hge]
    | succ f₂ =>
      rw [scrapeLoop]
      conv_rhs => rw [scrapeLoop]
      by_cases hg : st.jobs.length < cfg.results_wanted ∧ start < 1000
      · simp only [if_pos hg]
        cases hw : w.search start with
        | err => rfl
        | ok status cards =>
          by_cases h429 : status = 429
          · simp only [if_pos h429]
          · simp only [if_neg h429]
            by_cases h400 : 400 ≤ status
            · simp only [if_pos h400]
            · simp only [if_neg h400]
              cases cards with
              | nil => rfl
              | cons c cs =>
                refine ih f₂ _ _ ?_ ?_ <;>
                  · have hlen : (c :: cs).length = cs.length + 1 := rfl
                    omega
      · simp only [if_neg hg]

/-- On a transport error, a 429 response or any status of 400 or more, the
loop leaves the accumulated jobs unchanged. -/
theorem scrapeLoop_bad (w : World) (cfg : LinkedInSearchConfig)
    (fuel : Nat) (st : ScrapeState) (start : Nat) (hbad : badResp (w.search start)) :
    (scrapeLoop w cfg fuel st start).jobs = st.jobs := by
  cases fuel with
  | zero => rfl
  | succ fuel =>
    rw [scrapeLoop]
    by_cases hg : st.jobs.length < cfg.results_wanted ∧ start < 1000
    · rw [if_pos hg]
      dsimp only
      cases hw : w.search start with
      | err => rfl
      | ok status cards =>
        rw [hw] at hbad
        simp only [badResp] at hbad
        by_cases h429 : status = 429
        · simp only [if_pos h429]
        · simp only [if_neg h429]
          have h400 : 400 ≤ status := by
            rcases hbad with h | h
            · exact absurd h h429
            · exact h
          simp only [if_pos h400]
    · rw [if_neg hg]

/-- The v1 loop never pushes the internal job count above results_wanted. -/
theorem scrapeLoopV1_length_le (w : World) (cfg : MinConfig) :
    ∀ (fuel : Nat) (st : ScrapeState) (start : Nat),
    st.jobs.length ≤ cfg.results_wanted →
    (scrapeLoopV1 w cfg fuel st start).fst.jobs.length ≤ cfg.results_wanted := by
  intro fuel
  induction fuel with
  | zero => intro st start h; exact h
  | succ fuel ih =>
    intro st start h
    rw [scrapeLoopV1]
    by_cases hg : st.jobs.length < cfg.results_wanted ∧ start < 1000
    · rw [if_pos hg]
      dsimp only
      cases hw : w.search start with
      | err => exact h
      | ok status cards =>
        by_cases h429 : status = 429
        · simp only [if_pos h429]; exact h
        · simp only [if_neg h429]
          by_cases h400 : 400 ≤ status
          · simp only [if_pos h400]; exact h
          · simp only [if_neg h400]
            cases cards with
            | nil => exact h
            | cons c cs => exact ih _ _ (processCardsV1_length_le w cfg _ _ hg.1)
    · rw [if_neg hg]; exact h

/-- Search offsets appended by the v1 loop: first one at the entry offset,
advancing by the exact card count of each successful nonempty page, all below
the 1000 ceiling. -/
theorem scrapeLoopV1_offsets (w : World) (cfg : MinConfig) :
    ∀ (fuel : Nat) (st : ScrapeState) (start : Nat),
    ∃ tail, searchOffsets (scrapeLoopV1 w cfg fuel st start).fst.evs =
        searchOffsets st.evs ++ tail ∧
      (tail = [] ∨ ∃ r, tail = start :: r) ∧
      List.Chain' (nextReqRel w) tail ∧
      (∀ s ∈ tail, s < 1000) := by
  intro fuel
  induction fuel with
  | zero =>
    intro st start
    exact ⟨[], by simp [scrapeLoopV1], Or.inl rfl, List.chain'_nil, by simp⟩
  | succ fuel ih =>
    intro st start
    rw [scrapeLoopV1]
    by_cases hg : st.jobs.length < cfg.results_wanted ∧ start < 1000
    · rw [if_pos hg]
      dsimp only
      have hst0 : searchOffsets (st.evs ++ [Ev.searchReq start]) =
          searchOffsets st.evs ++ [start] := by
        simp [searchOffsets, List.filterMap_append]
      have hone : ∃ tail, searchOffsets (st.evs ++ [Ev.searchReq start]) =
          searchOffsets st.evs ++ tail ∧ (tail = [] ∨ ∃ r, tail = start :: r) ∧
          List.Chain' (nextReqRel w) tail ∧ (∀ s ∈ tail, s < 1000) :=
        ⟨[start], hst0, Or.inr ⟨[], rfl⟩, List.chain'_singleton start, by
          intro s hs; simp at hs; omega⟩
      cases hw : w.search start with
      | err => exact hone
      | ok status cards =>
        by_cases h429 : status = 429
        · simp only [if_pos h429]; exact hone
        · simp only [if_neg h429]
          by_cases h400 : 400 ≤ status
          · simp only [if_pos h400]; exact hone
          · simp only [if_neg h400]
            cases cards with
            | nil => exact hone
            | cons c cs =>
              obtain ⟨tail, heq, hhead, hchain, hlt⟩ :=
                ih (processCardsV1 w cfg (c :: cs)
                      { st with evs := st.evs ++ [Ev.searchReq start] })
                   (start + (c :: cs).length)
              refine ⟨start :: tail, ?_, Or.inr ⟨tail, rfl⟩, ?_, ?_⟩
              · rw [heq, processCardsV1_searchOffsets]
                show searchOffsets (st.evs ++ [Ev.searchReq start]) ++ tail = _
                rw [hst0]
                simp
              · cases tail with
                | nil => exact List.chain'_singleton start
                | cons b r =>
                  rcases hhead with h0 | ⟨r', hr⟩
                  · cases h0
                  · rw [List.chain'_cons]
                    refine ⟨?_, hchain⟩
                    have hb : b = start + (c :: cs).length := by
                      injection hr with hb _
                    exact ⟨status, c :: cs, hw, h429, Nat.lt_of_not_le h400,
                      List.cons_ne_nil c cs, hb⟩
              · intro s hs
                rcases List.mem_cons.mp hs with rfl | hs
                · exact hg.2
                · exact hlt s hs
    · rw [if_neg hg]
      exact ⟨[], by simp, Or.inl rfl, List.chain'_nil, by simp⟩

/-- Past the hard offset ceiling the v1 loop does nothing. -/
theorem scrapeLoopV1_stop_of_ge (w : World) (cfg : MinConfig)
    (fuel : Nat) (st : ScrapeState) (start : Nat) (h : 1000 ≤ start) :
    scrapeLoopV1 w cfg fuel st start = (st, none) := by
  cases fuel with
  | zero => rfl
  | succ fuel =>
    rw [scrapeLoopV1, if_neg]
    intro hc
    omega

/-- Termination of the v1 loop: fuel covering the distance to the ceiling
determines the result. -/
theorem scrapeLoopV1_fuel_indep (w : World) (cfg : MinConfig) :
    ∀ (f₁ f₂ : Nat) (st : ScrapeState) (start : Nat),
    1000 - start ≤ f₁ → 1000 - start ≤ f₂ →
    scrapeLoopV1 w cfg f₁ st start = scrapeLoopV1 w cfg f₂ st start := by
  intro f₁
  induction f₁ with
  | zero =>
    intro f₂ st start h1 h2
    have hge : 1000 ≤ start := by omega
    rw [scrapeLoopV1_stop_of_ge w cfg 0 st start hge,
        scrapeLoopV1_stop_of_ge w cfg f₂ st start hge]
  | succ f₁ ih =>
    intro f₂ st start h1 h2
    cases f₂ with
    | zero =>
      have hge : 1000 ≤ start := by omega
      rw [scrapeLoopV1_stop_of_ge w cfg (f₁ + 1) st start hge,
          scrapeLoopV1_stop_of_ge w cfg 0 st start hge]
    | succ f₂ =>
      rw [scrapeLoopV1]
      conv_rhs => rw [scrapeLoopV1]
      by_cases hg : st.jobs.length < cfg.results_wanted ∧ start < 1000
      · simp only [if_pos hg]
        cases hw : w.search start with
        | err => rfl
        | ok status cards =>
          by_cases h429 : status = 429
          · simp only [if_pos h429]
          · simp only [if_neg h429]
            by_cases h400 : 400 ≤ status
            · simp only [if_pos h400]
            · simp only [if_neg h400]
              cases cards with
              | nil => rfl
              | cons c cs =>
                refine ih f₂ _ _ ?_ ?_ <;>
                  · have hlen : (c :: cs).length = cs.length + 1 := rfl
                    omega
      · simp only [if_neg hg]

/-- When the v1 loop is still running and the search request fails (transport
error, 429, or status of 400 or more), scrape_linkedin raises RuntimeError:
the modelled run carries an exception message instead of returning. -/
theorem scrapeLoopV1_bad (w : World) (cfg : MinConfig)
    (fuel : Nat) (st : ScrapeState) (start : Nat)
    (hrun : st.jobs.length < cfg.results_wanted ∧ start < 1000)
    (hbad : badResp (w.search start)) :
    (scrapeLoopV1 w cfg (fuel + 1) st start).snd.isSome = true := by
  rw [scrapeLoopV1, if_pos hrun]
  dsimp only
  cases hw : w.search start with
  | err => rfl
  | ok status cards =>
    rw [hw] at hbad
    simp only [badResp] at hbad
    by_cases h429 : status = 429
    · simp only [if_pos h429]; rfl
    · simp only [if_neg h429]
      have h400 : 400 ≤ status := by
        rcases hbad with h | h
        · exact absurd h h429
        · exact h
      simp only [if_pos h400]
      rfl

/-- A company containing a nonempty blocked term (case-insensitively, after
the term is stripped) is recognised by the blocklist test. -/
theorem blockedBy_of_term {blocklist : List String} {t : String} {company : String}
    (hmem : t ∈ blocklist) (hne : t ≠ "")
    (hinf : lowerData t <:+: lowerData company) :
    blockedBy blocklist company = true := by
  unfold blockedBy
  have hbl : ¬blocklist = [] := by
    rintro rfl
    cases hmem
  rw [if_neg hbl, List.any_eq_true]
  refine ⟨t, hmem, ?_⟩
  rw [Bool.and_eq_true]
  constructor
  · exact bne_iff_ne.mpr hne
  · rw [occursIn_iff]
    exact (pyStrip_occurs_self (lowerData t)).trans hinf

/-- Classification of a fresh blocked card. -/
theorem classifyCard_markOnly_of {cfg : LinkedInSearchConfig} {seen : List String}
    {c : Card} {hr jid : String}
    (h1 : cardHref c = some hr)
    (h2 : extract_job_id_from_href hr = some jid)
    (h3 : jid ∉ seen)
    (h4 : blockedBy cfg.filter_out_companies ((c.company).getD "N/A") = true) :
    classifyCard cfg seen c = CardAction.markOnly jid := by
  unfold classifyCard
  rw [h1]
  dsimp only
  rw [h2]
  dsimp only
  rw [if_neg h3, if_pos h4]

/-- Classification of a fresh unblocked card. -/
theorem classifyCard_emit_of {cfg : LinkedInSearchConfig} {seen : List String}
    {c : Card} {hr jid : String}
    (h1 : cardHref c = some hr)
    (h2 : extract_job_id_from_href hr = some jid)
    (h3 : jid ∉ seen)
    (h4 : blockedBy cfg.filter_out_companies ((c.company).getD "N/A") = false) :
    classifyCard cfg seen c =
      CardAction.emit jid ((c.title).getD "N/A") ((c.company).getD "N/A") := by
  unfold classifyCard
  rw [h1]
  dsimp only
  rw [h2]
  dsimp only
  rw [if_neg h3, if_neg (by simp [h4])]

/-- C1: for every configuration and every sequence of fetched pages, the
scrape loop returns at most results_wanted Jobs, and once the collected count
reaches results_wanted while iterating the cards of a page it stops
processing the remaining cards of that page: the resulting state (jobs, seen
set and issued requests, hence in particular detail fetches) is exactly the
one of the prefix that reached the target.  Stated for the jobbot client
(scrape, processCards) and for the v1 minimal scraper (scrape_linkedinV1,
processCardsV1). -/
theorem claim1_results_bound_and_early_stop :
    (∀ (w : World) (cfg : LinkedInSearchConfig),
       (scrape w cfg).jobs.length ≤ cfg.results_wanted) ∧
    (∀ (w : World) (cfg : LinkedInSearchConfig) (l₁ l₂ : List Card) (st : ScrapeState),
       st.jobs.length < cfg.results_wanted →
       cfg.results_wanted ≤ (processCards w cfg l₁ st).jobs.length →
       processCards w cfg (l₁ ++ l₂) st = processCards w cfg l₁ st) ∧
    (∀ (w : World) (cfg : MinConfig),
       (scrape_linkedinV1 w cfg).fst.jobs.length ≤ cfg.results_wanted) ∧
    (∀ (w : World) (cfg : MinConfig) (l₁ l₂ : List Card) (st : ScrapeState),
       st.jobs.length < cfg.results_wanted →
       cfg.results_wanted ≤ (processCardsV1 w cfg l₁ st).jobs.length →
       processCardsV1 w cfg (l₁ ++ l₂) st = processCardsV1 w cfg l₁ st) := by
  refine ⟨?_, processCards_early_stop, ?_, processCardsV1_early_stop⟩
  · intro w cfg
    exact scrapeLoop_length_le w cfg 1000 _ _ (Nat.zero_le _)
  · intro w cfg
    exact scrapeLoopV1_length_le w cfg 1000 _ _ (Nat.zero_le _)

/-- Witness for C1 at a concrete input: with results_wanted 1, the first card
of a two-card page reaches the target, and the second card is not processed. -/
theorem claim1_witness :
    processCards wEmptyPages cfgSmall ([mkCard 101] ++ [mkCard 102]) ⟨[], [], []⟩ =
      processCards wEmptyPages cfgSmall [mkCard 101] ⟨[], [], []⟩ :=
  claim1_results_bound_and_early_stop.2.1 wEmptyPages cfgSmall [mkCard 101] [mkCard 102]
    ⟨[], [], []⟩ (by decide) (by decide)

/-- C2: across any sequence of pages, the final Job sequence of the jobbot
scrape contains each job identifier at most once (job URLs, which determine
ids, are pairwise distinct), and the Jobs appear in first-seen order: their
URL sequence is a subsequence of the URL image of the seen-id list, which by
construction records ids in the order first encountered (document order
within each page, pages in fetch order), and that list is itself
duplicate-free. -/
theorem claim2_dedup_first_seen_order (w : World) (cfg : LinkedInSearchConfig) :
    ((scrape w cfg).jobs.map Job.job_url).Nodup ∧
    List.Sublist ((scrape w cfg).jobs.map Job.job_url) ((scrape w cfg).seen.map jobViewUrl) ∧
    (scrape w cfg).seen.Nodup := by
  have h := scrapeLoop_inv w cfg 1000 ⟨[], [], []⟩ (initStart cfg)
    (by unfold stInv; constructor <;> simp)
  unfold scrape
  unfold stInv at h
  obtain ⟨hsub, hnd⟩ := h
  refine ⟨?_, hsub, hnd⟩
  exact ((hnd.map jobViewUrl_inj)).sublist hsub

/-- C3 counterexample: the claim asserts that a failed search request never
raises and still returns the accumulated Jobs, but scrape_linkedin in
linkedin_scraper_min.py raises RuntimeError on a 429: at this concrete input
the modelled run carries the raised message instead of returning its (empty)
job list. -/
theorem claim3_counterexample :
    (scrape_linkedinV1 w429 mcfgSmall).snd =
      some "429 Too Many Requests (rate-limited by LinkedIn). Slow down / add backoff." ∧
    (scrape_linkedinV1 w429 mcfgSmall).fst.jobs = [] := by
  constructor <;> rfl

/-- C3 amended: in the jobbot client (linkedin_client.py) a transport error,
an HTTP 429 or any status of 400 or more halts the loop without raising and
returns exactly the Jobs accumulated so far (in particular a 429 on the very
first request yields an empty Job sequence); the v1 minimal scraper
(linkedin_scraper_min.py) instead raises RuntimeError in those three cases. -/
theorem claim3_amended_partial_results :
    (∀ (w : World) (cfg : LinkedInSearchConfig) (fuel : Nat) (st : ScrapeState) (start : Nat),
       badResp (w.search start) → (scrapeLoop w cfg fuel st start).jobs = st.jobs) ∧
    (∀ (w : World) (cfg : LinkedInSearchConfig),
       badResp (w.search (initStart cfg)) → (scrape w cfg).jobs = []) ∧
    (∀ (w : World) (cfg : MinConfig) (fuel : Nat) (st : ScrapeState) (start : Nat),
       st.jobs.length < cfg.results_wanted ∧ start < 1000 →
       badResp (w.search start) →
       (scrapeLoopV1 w cfg (fuel + 1) st start).snd.isSome = true) := by
  refine ⟨scrapeLoop_bad, ?_, scrapeLoopV1_bad⟩
  intro w cfg hbad
  unfold scrape
  exact scrapeLoop_bad w cfg 1000 ⟨[], [], []⟩ (initStart cfg) hbad

/-- Witness for C3 at a concrete input: a 429 on the very first request gives
the jobbot client an empty job list without raising. -/
theorem claim3_witness : (scrape w429 cfgSmall).jobs = [] :=
  claim3_amended_partial_results.2.1 w429 cfgSmall (Or.inl rfl)

/-- C4: after each successfully fetched non-empty page, the offset of the
next search request equals the previous offset plus the exact number of cards
extracted from that page (nextReqRel); this holds along the whole request
trace of both the jobbot client and the v1 minimal scraper, and on a concrete
world returning pages of 25, 25, 10 and 0 cards the requested offsets are
exactly 0, 25, 50, 60. -/
theorem claim4_offset_advances_by_batch :
    (∀ (w : World) (cfg : LinkedInSearchConfig),
       List.Chain' (nextReqRel w) (searchOffsets (scrape w cfg).evs)) ∧
    (∀ (w : World) (cfg : MinConfig),
       List.Chain' (nextReqRel w) (searchOffsets (scrape_linkedinV1 w cfg).fst.evs)) ∧
    searchOffsets (scrape w25 cfgMany).evs = [0, 25, 50, 60] := by
  refine ⟨?_, ?_, by decide⟩
  · intro w cfg
    obtain ⟨tail, heq, _, hchain, _⟩ :=
      scrapeLoop_offsets w cfg 1000 ⟨[], [], []⟩ (initStart cfg)
    unfold scrape
    rw [heq]
    simpa [searchOffsets] using hchain
  · intro w cfg
    obtain ⟨tail, heq, _, hchain, _⟩ :=
      scrapeLoopV1_offsets w cfg 1000 ⟨[], [], []⟩ (initStartV1 cfg)
    unfold scrape_linkedinV1
    rw [heq]
    simpa [searchOffsets] using hchain

/-- C5: the description fetch returns the unavailable value (none) on every
failure: request exception or HTTP error status, a final URL that crossed the
sign-up or sign-in boundary, or a missing content container; and in the
scrape loop a card whose description fetch returns none still yields a Job
with description none, after which processing continues with the remaining
cards of the page. -/
theorem claim5_description_best_effort :
    (∀ (w : World) (jid : String), w.detail jid = DetailResult.err →
       fetch_job_description w jid = none) ∧
    (∀ (w : World) (jid u : String) (m : Option String),
       w.detail jid = DetailResult.page u m →
       (containsSub "linkedin.com/signup" u || containsSub "linkedin.com/login" u) = true →
       fetch_job_description w jid = none) ∧
    (∀ (w : World) (jid u : String),
       w.detail jid = DetailResult.page u none →
       fetch_job_description w jid = none) ∧
    (∀ (w : World) (cfg : LinkedInSearchConfig) (c : Card) (rest : List Card)
       (st : ScrapeState) (hr jid : String),
       cardHref c = some hr →
       extract_job_id_from_href hr = some jid →
       jid ∉ st.seen →
       blockedBy cfg.filter_out_companies ((c.company).getD "N/A") = false →
       cfg.fetch_description = true →
       fetch_job_description w jid = none →
       st.jobs.length + 1 < cfg.results_wanted →
       processCards w cfg (c :: rest) st =
         processCards w cfg rest
           { jobs := st.jobs ++ [{ job_url := jobViewUrl jid,
                                   title := (c.title).getD "N/A",
                                   company_name := (c.company).getD "N/A",
                                   description := none }],
             seen := st.seen ++ [jid],
             evs := st.evs ++ [Ev.detailReq jid] }) := by
  refine ⟨?_, ?_, ?_, ?_⟩
  · intro w jid h
    unfold fetch_job_description
    rw [h]
  · intro w jid u m h hurl
    unfold fetch_job_description
    rw [h]
    dsimp only
    rw [if_pos hurl]
  · intro w jid u h
    unfold fetch_job_description
    rw [h]
    dsimp only
    split <;> rfl
  · intro w cfg c rest st hr jid h1 h2 h3 h4 h5 h6 h7
    have hcl := classifyCard_emit_of h1 h2 h3 h4
    simp only [processCards, hcl]
    have hemit : emitState w cfg.fetch_description st jid ((c.title).getD "N/A")
        ((c.company).getD "N/A") =
        { jobs := st.jobs ++ [{ job_url := jobViewUrl jid,
                                title := (c.title).getD "N/A",
                                company_name := (c.company).getD "N/A",
                                description := none }],
          seen := st.seen ++ [jid],
          evs := st.evs ++ [Ev.detailReq jid] } := by
      simp [emitState, h5, h6]
    rw [hemit]
    rw [if_neg (by simp; omega)]

/-- Witness for C5 at a concrete input: a card whose detail request fails
still produces a Job with description none and the page processing moves on
to the remaining cards. -/
theorem claim5_witness :
    fetch_job_description wEmptyPages "101" = none ∧
    processCards wEmptyPages cfgFive (mkCard 101 :: [mkCard 102]) ⟨[], [], []⟩ =
      processCards wEmptyPages cfgFive [mkCard 102]
        { jobs := [{ job_url := jobViewUrl "101", title := "N/A",
                     company_name := "N/A", description := none }],
          seen := ["101"],
          evs := [Ev.detailReq "101"] } := by
  constructor
  · exact claim5_description_best_effort.1 wEmptyPages "101" rfl
  · have h := claim5_description_best_effort.2.2.2 wEmptyPages cfgFive (mkCard 101)
      [mkCard 102] ⟨[], [], []⟩ "j-101" "101" (by decide) (by decide) (by decide)
      (by decide) (by decide) (by decide) (by decide)
    simpa using h

/-- C6: the built parameter mapping always contains keywords, location,
distance, pageNum 0 and start equal to the offset, and contains each optional
key exactly when the corresponding field is set: f_WT with the configured
code only when the work-type filter is set, f_E only when experience_levels
is nonempty, f_AL with the literal string true only when easy_apply, f_C
comma-joined only when company_ids is nonempty, and f_TPR equal to r followed
by hours_old times 3600 only when hours_old is set.  build_search_params is a
Lean function of cfg and start alone, hence free of side effects. -/
theorem claim6_build_search_params_shape (cfg : LinkedInSearchConfig) (start : Nat) :
    getParam (build_search_params cfg start) "keywords" = some (PVal.s cfg.keywords) ∧
    getParam (build_search_params cfg start) "location" = some (PVal.s cfg.location) ∧
    getParam (build_search_params cfg start) "distance" = some (PVal.i cfg.distance) ∧
    getParam (build_search_params cfg start) "pageNum" = some (PVal.i 0) ∧
    getParam (build_search_params cfg start) "start" = some (PVal.i start) ∧
    getParam (build_search_params cfg start) "f_WT" = (cfg.f_WT).map PVal.i ∧
    getParam (build_search_params cfg start) "f_E" =
      (if cfg.experience_levels ≠ "" then some (PVal.s cfg.experience_levels) else none) ∧
    getParam (build_search_params cfg start) "f_AL" =
      (if cfg.easy_apply then some (PVal.s "true") else none) ∧
    getParam (build_search_params cfg start) "f_C" =
      (if cfg.company_ids ≠ [] then some (PVal.s (joinIds cfg.company_ids)) else none) ∧
    getParam (build_search_params cfg start) "f_TPR" =
      (cfg.hours_old).map (fun h => PVal.s ("r" ++ toString (h * 3600))) := by
  rcases cfg with ⟨kw, loc, dist, fwt, el, ea, ci, ho, fd, rw, off, blk⟩
  dsimp only
  rcases fwt with _ | v <;>
    rcases ho with _ | hrs <;>
      cases ea <;>
        by_cases hel : el = "" <;>
          by_cases hci : ci = [] <;>
            simp [build_search_params, baseParams, optParams, getParam, hel, hci]

/-- C7: an f_WT outside the codes 1, 2, 3 makes the jobbot CLI path fail with
the ConfigurationError message for every world, before any request is built
or any network interaction can be observed, and makes the v2 builder raise
instead of returning a parameter mapping; an unset f_WT or one of the codes
1, 2, 3 raises no such error, the run proceeds to scrape and the v2 builder
returns exactly the jobbot parameter mapping. -/
theorem claim7_worktype_validation (cfg : LinkedInSearchConfig) :
    (¬validWT cfg →
       (∀ w : World, run_cli w cfg = Except.error configErrMsg) ∧
       (∀ start : Nat, build_search_params_v2 cfg start = Except.error configErrMsg)) ∧
    (validWT cfg →
       (∀ w : World, run_cli w cfg = Except.ok (scrape w cfg)) ∧
       (∀ start : Nat, build_search_params_v2 cfg start =
          Except.ok (build_search_params cfg start))) := by
  constructor
  · intro hbad
    rcases hv : cfg.f_WT with _ | v
    · exact absurd (Or.inl hv) hbad
    · have hne : v ≠ 1 ∧ v ≠ 2 ∧ v ≠ 3 := by
        refine ⟨fun h => ?_, fun h => ?_, fun h => ?_⟩ <;> subst h <;>
          exact hbad (by unfold validWT; tauto)
      constructor
      · intro w
        unfold run_cli load_config_check
        rw [hv]
        dsimp only
        rw [if_pos hne]
      · intro start
        unfold build_search_params_v2
        rw [hv]
        dsimp only
        rw [if_neg (by tauto)]
  · intro hgood
    constructor
    · intro w
      unfold run_cli
      rcases hgood with hv | hv | hv | hv <;> simp [load_config_check, hv]
    · intro start
      unfold build_search_params_v2 build_search_params
      rcases hgood with hv | hv | hv | hv <;> simp [hv]

/-- Witness for C7 at a concrete input: work-type code 7 is rejected with the
configuration error for an arbitrary world, and the v2 builder raises too. -/
theorem claim7_witness :
    run_cli wEmptyPages cfgBadWT = Except.error configErrMsg ∧
    build_search_params_v2 cfgBadWT 0 = Except.error configErrMsg := by
  have h := (claim7_worktype_validation cfgBadWT).1 (by unfold validWT; decide)
  exact ⟨h.1 wEmptyPages, h.2 0⟩

/-- C8 counterexample: the claim quantifies over every blocklist term, but
the code ignores falsy (empty) terms.  With the blocklist consisting of the
empty string, every company name case-insensitively contains that term, so
the claim requires every card to be skipped; the code nevertheless emits the
Job for the Acme card. -/
theorem claim8_counterexample :
    cfgEmptyTerm.filter_out_companies = [""] ∧
    occursIn (lowerData "") (lowerData "Acme") = true ∧
    (scrape wAcme cfgEmptyTerm).jobs =
      [{ job_url := "https://www.linkedin.com/jobs/view/321", title := "T",
         company_name := "Acme", description := none }] := by
  refine ⟨rfl, rfl, by decide⟩

/-- C8 amended: when the blocklist is configured, every card whose company
name case-insensitively contains a NONEMPTY blocklist term as a substring is
skipped before description enrichment: its identifier is recorded in the seen
set, but no Job is appended, no detail request is issued, the collected count
is unchanged (so the card does not count toward results_wanted), and
processing continues with the remaining cards. -/
theorem claim8_amended_blocklist_skip (w : World) (cfg : LinkedInSearchConfig)
    (c : Card) (rest : List Card) (st : ScrapeState) (hr jid t : String)
    (h1 : cardHref c = some hr)
    (h2 : extract_job_id_from_href hr = some jid)
    (h3 : jid ∉ st.seen)
    (h4 : t ∈ cfg.filter_out_companies)
    (h5 : t ≠ "")
    (h6 : lowerData t <:+: lowerData ((c.company).getD "N/A")) :
    processCards w cfg (c :: rest) st =
      processCards w cfg rest { st with seen := st.seen ++ [jid] } := by
  have hb : blockedBy cfg.filter_out_companies ((c.company).getD "N/A") = true :=
    blockedBy_of_term h4 h5 h6
  have hcl := classifyCard_markOnly_of h1 h2 h3 hb
  simp only [processCards, hcl]

/-- Witness for C8 at a concrete input: the blocked Acme Corp card only marks
its id as seen and the page processing continues with the next card. -/
theorem claim8_witness :
    processCards wEmptyPages cfgBlockAcme (cardAcmeCorp :: [mkCard 101]) ⟨[], [], []⟩ =
      processCards wEmptyPages cfgBlockAcme [mkCard 101] ⟨[], ["77"], []⟩ := by
  have h := claim8_amended_blocklist_skip wEmptyPages cfgBlockAcme cardAcmeCorp
    [mkCard 101] ⟨[], [], []⟩ "a-77" "77" "Acme" (by decide) (by decide) (by decide)
    (by decide) (by decide) ((occursIn_iff _ _).mp (by decide))
  simpa using h

/-- C9 counterexample: the claim asserts that the initial offset is the
configured offset floored to a multiple of 10, but scrape_linkedin in
linkedin_scraper_min.py floors to a multiple of 25: with offset 10 its first
(and only) search request is issued at offset 0, not at 10 = 10 / 10 * 10. -/
theorem claim9_counterexample :
    scrape_linkedinV1 wEmptyPages mcfgOff10 = (⟨[], [], [Ev.searchReq 0]⟩, none) ∧
    mcfgOff10.offset / 10 * 10 = 10 ∧ (0 : Nat) ≠ 10 := by
  refine ⟨by decide, rfl, by decide⟩

/-- C9 amended: the jobbot client floors the configured offset to a multiple
of 10, the v1 minimal scraper floors it to a multiple of 25, and in both
loops every issued search request has offset strictly below the hard ceiling
of 1000. -/
theorem claim9_amended_initial_offset :
    (∀ cfg : LinkedInSearchConfig, initStart cfg = cfg.offset / 10 * 10) ∧
    (∀ cfg : MinConfig, initStartV1 cfg = cfg.offset / 25 * 25) ∧
    (∀ (w : World) (cfg : LinkedInSearchConfig) (s : Nat),
       s ∈ searchOffsets (scrape w cfg).evs → s < 1000) ∧
    (∀ (w : World) (cfg : MinConfig) (s : Nat),
       s ∈ searchOffsets (scrape_linkedinV1 w cfg).fst.evs → s < 1000) := by
  refine ⟨?_, ?_, ?_, ?_⟩
  · intro cfg; unfold initStart; split <;> omega
  · intro cfg; unfold initStartV1; split <;> omega
  · intro w cfg s hs
    obtain ⟨tail, heq, _, _, hlt⟩ :=
      scrapeLoop_offsets w cfg 1000 ⟨[], [], []⟩ (initStart cfg)
    unfold scrape at hs
    rw [heq] at hs
    simp only [searchOffsets, List.filterMap_nil, List.nil_append] at hs
    exact hlt s hs
  · intro w cfg s hs
    obtain ⟨tail, heq, _, _, hlt⟩ :=
      scrapeLoopV1_offsets w cfg 1000 ⟨[], [], []⟩ (initStartV1 cfg)
    unfold scrape_linkedinV1 at hs
    rw [heq] at hs
    simp only [searchOffsets, List.filterMap_nil, List.nil_append] at hs
    exact hlt s hs

/-- Witness for C9 at a concrete input: the only search request of a
rate-limited run sits below the ceiling, and the initial offset formula holds
at a concrete configuration. -/
theorem claim9_witness :
    (0 : Nat) < 1000 ∧ initStart cfgSmall = cfgSmall.offset / 10 * 10 :=
  ⟨claim9_amended_initial_offset.2.2.1 w429 cfgSmall 0 (by decide),
   claim9_amended_initial_offset.1 cfgSmall⟩

/-- C10: the scrape loop terminates for every configuration and every world:
its result is already determined by any fuel covering the distance from the
current offset to the hard ceiling of 1000, because every continuing
iteration advances the offset by the card count of a nonempty page (at least
one) and the loop stops at offset 1000; in particular the loop body runs at
most 1000 times.  Stated for both the jobbot client and the v1 minimal
scraper. -/
theorem claim10_termination :
    (∀ (w : World) (cfg : LinkedInSearchConfig) (f₁ f₂ : Nat) (st : ScrapeState) (start : Nat),
       1000 - start ≤ f₁ → 1000 - start ≤ f₂ →
       scrapeLoop w cfg f₁ st start = scrapeLoop w cfg f₂ st start) ∧
    (∀ (w : World) (cfg : MinConfig) (f₁ f₂ : Nat) (st : ScrapeState) (start : Nat),
       1000 - start ≤ f₁ → 1000 - start ≤ f₂ →
       scrapeLoopV1 w cfg f₁ st start = scrapeLoopV1 w cfg f₂ st start) :=
  ⟨scrapeLoop_fuel_indep, scrapeLoopV1_fuel_indep⟩

/-- Witness for C10 at a concrete input: doubling the fuel does not change
the run. -/
theorem claim10_witness :
    scrapeLoop w429 cfgSmall 1000 ⟨[], [], []⟩ 0 = scrapeLoop w429 cfgSmall 2000 ⟨[], [], []⟩ 0 :=
  claim10_termination.1 w429 cfgSmall 1000 2000 ⟨[], [], []⟩ 0 (by decide) (by decide)
